import Mathlib

/-!
Verification development for the turn-segmentation and subtitle-assembly
pipeline implemented in `web-ui.py`.

The embedding models, faithfully to the source:

* `format_timestamp` (lines 83-91): `base_time + timedelta(seconds=s)`
  followed by `strftime("%H:%M:%S.%f")[:-4]`.  A Python `timedelta` built
  from a float rounds to whole microseconds using round-half-to-even;
  `strftime` prints the time of day (the date part is discarded), and the
  slice `[:-4]` removes the last four characters, leaving two fractional
  digits.  Seconds are modelled as exact rationals.  Adding the delta to
  `base_time` raises `OverflowError` outside the `datetime` range
  (year 1 to year 9999); that is the only error path of the function.
* `extract_audio_track` (lines 94-107): pydub millisecond slicing, which
  behaves like Python list slicing (clamping, never raising).
* the turn merger: the source delegates it to
  `diarization.support(collar)` from pyannote, whose code is not part of
  this repository; `mergeTurns` below is modelled from the specification
  of the Turn Merger (sort by start, tie-break by end; a new turn extends
  the immediately preceding one iff same speaker and gap at most collar).
* `generate_transcription`, `format_transcription`, `save_transcription`
  and `process_video` (lines 131-244), with the external diarization and
  speech-recognition models abstracted as capabilities.
-/

set_option linter.unusedVariables false

namespace WebUI

/-- A diarized speaker turn: label plus start and end offsets in seconds.
The field `stop` models the source attribute `end`, which is a reserved
word in Lean. -/
structure Turn where
  speaker : String
  start : ℚ
  stop : ℚ
  deriving DecidableEq, Repr

/-- Sort key used by the Turn Merger: start ascending, ties broken by end
ascending. -/
def turnLE (a b : Turn) : Prop :=
  a.start < b.start ∨ (a.start = b.start ∧ a.stop ≤ b.stop)

instance : DecidableRel turnLE := fun _ _ => instDecidableOr

instance : IsTotal Turn turnLE where
  total a b := by
    unfold turnLE
    rcases lt_trichotomy a.start b.start with h | h | h
    · exact Or.inl (Or.inl h)
    · rcases le_total a.stop b.stop with h2 | h2
      · exact Or.inl (Or.inr ⟨h, h2⟩)
      · exact Or.inr (Or.inr ⟨h.symm, h2⟩)
    · exact Or.inr (Or.inl h)

instance : IsTrans Turn turnLE where
  trans a b c hab hbc := by
    unfold turnLE at *
    rcases hab with h | ⟨h, h'⟩ <;> rcases hbc with g | ⟨g, g'⟩
    · exact Or.inl (h.trans g)
    · exact Or.inl (g ▸ h)
    · exact Or.inl (h ▸ g)
    · exact Or.inr ⟨h.trans g, h'.trans g'⟩

/-- Modelled from the spec: the source merges same-speaker turns with
`diarization.support(collar)` (pyannote, not part of this repository).
Scan of the start-sorted stream: the next turn `t` extends the open turn
`cur` iff it has the same speaker and `t.start - cur.stop ≤ collar`, in
which case the end becomes the larger of the two ends; otherwise `cur` is
emitted and `t` opens a new turn. -/
def mergeLoop (collar : ℚ) (cur : Turn) : List Turn → List Turn
  | [] => [cur]
  | t :: ts =>
    if cur.speaker = t.speaker ∧ t.start - cur.stop ≤ collar then
      mergeLoop collar ⟨cur.speaker, cur.start, max cur.stop t.stop⟩ ts
    else
      cur :: mergeLoop collar t ts

/-- Modelled from the spec: the Turn Merger sorts the raw turns by start
(ties by end) and then merges with `mergeLoop`. -/
def mergeTurns (collar : ℚ) (turns : List Turn) : List Turn :=
  match List.insertionSort turnLE turns with
  | [] => []
  | t :: ts => mergeLoop collar t ts

/-- Two adjacent merged turns are separated: the merge condition of
`mergeLoop` does not hold between them, so no further merge is
possible. -/
def separated (collar : ℚ) (a b : Turn) : Prop :=
  ¬(a.speaker = b.speaker ∧ b.start - a.stop ≤ collar)

/-- Error raised by the Python runtime when the datetime arithmetic in
`format_timestamp` leaves the representable range (year 1 to 9999).  This
is the only exception the function can raise; in particular there is no
InvalidArgument path. -/
inductive PyError where
  | overflowError
  deriving DecidableEq, Repr

deriving instance DecidableEq for Except

/-- Round-half-to-even rounding of a rational number to an integer: the
rounding Python applies to the fractional microseconds when a `timedelta`
is built from a float number of seconds. -/
def roundHalfEven (q : ℚ) : ℤ :=
  if q - ⌊q⌋ < 1/2 then ⌊q⌋
  else if 1/2 < q - ⌊q⌋ then ⌊q⌋ + 1
  else if ⌊q⌋ % 2 = 0 then ⌊q⌋ else ⌊q⌋ + 1

/-- Decimal digit character; strftime prints all its numeric fields in
zero-padded decimal. -/
def digitChar (n : ℕ) : Char := Char.ofNat (48 + n)

/-- Two-digit zero-padded decimal rendering of a value below 100, as used
by strftime for the hour, minute and second fields. -/
def two (n : ℕ) : List Char := [digitChar (n / 10 % 10), digitChar (n % 10)]

/-- Model of `(base_time + timedelta(microseconds=usec)).strftime("%H:%M:%S.%f")`
for lines 90-91 of the source: the date part of the datetime is not
printed, so only the time of day remains, which is `usec` modulo one day
(Python timedelta normalization keeps the sub-day part non-negative);
hours, minutes and seconds are zero-padded to two digits and the
microsecond fraction to six. -/
def strftime_hmsf (usec : ℤ) : String :=
  let tod := (usec % 86400000000).toNat
  ⟨two (tod / 3600000000) ++ ':' :: two (tod / 60000000 % 60) ++ ':' ::
    two (tod / 1000000 % 60) ++ '.' ::
      [digitChar (tod / 100000 % 10), digitChar (tod / 10000 % 10),
       digitChar (tod / 1000 % 10), digitChar (tod / 100 % 10),
       digitChar (tod / 10 % 10), digitChar (tod % 10)]⟩

/-- Python string slice `[:-4]`: drop the last four characters. -/
def pySliceDrop4 (s : String) : String :=
  ⟨s.data.dropLast.dropLast.dropLast.dropLast⟩

/-- String produced by `format_timestamp` (lines 87-91) when the datetime
arithmetic does not overflow: the strftime output with the last four
characters removed, which leaves two fractional digits. -/
def format_timestamp_str (seconds : ℚ) : String :=
  pySliceDrop4 (strftime_hmsf (roundHalfEven (seconds * 1000000)))

/-- Model of `format_timestamp` (lines 87-91).  `base_time +
timedelta(seconds=s)` rounds `s` to whole microseconds (half to even) and
raises `OverflowError` if the resulting datetime falls outside year 1 to
year 9999, that is if the microsecond offset from 1970-01-01 leaves
`[-62135596800000000, 253402300799999999]`.  Otherwise the function
returns the sliced strftime rendering.  There is no validation of the
sign of the input. -/
def format_timestamp (seconds : ℚ) : Except PyError String :=
  let usec := roundHalfEven (seconds * 1000000)
  if -62135596800000000 ≤ usec ∧ usec ≤ 253402300799999999 then
    Except.ok (format_timestamp_str seconds)
  else
    Except.error PyError.overflowError

/-- The eleven characters of a sliced timestamp, as a function of the
time of day counted in centiseconds (`k < 8640000`): hours, minutes,
seconds and the two surviving fractional digits. -/
def kChars (k : ℕ) : List Char :=
  two (k / 360000) ++
    (':' :: (two (k / 6000 % 60) ++
      (':' :: (two (k / 100 % 60) ++
        ('.' :: two (k % 100))))))

/-- A captioned turn: the dict built by `generate_transcription` at lines
160-166.  The field `stop` models the key `end`.  The `track_path` entry
(the per-turn mp3 clip path, derived from the rounded start time and the
speaker) is not modelled; no property below depends on it. -/
structure Caption where
  start : ℚ
  stop : ℚ
  speaker : String
  text : String
  deriving DecidableEq, Repr

/-- Python `str.strip()` with no argument: remove whitespace from both
ends of the string. -/
def pyStrip (s : String) : String :=
  ⟨((s.data.dropWhile Char.isWhitespace).reverse.dropWhile Char.isWhitespace).reverse⟩

/-- Model of `generate_transcription` (lines 131-169).  The source merges
turns with `diarization.support(collar)` (modelled by `mergeTurns`) and,
for each merged turn in chronological order, extracts the clip of the
turn, reads its bytes and runs the whisper pipeline on them; that chain
is abstracted as the capability `transcribe`.  The returned text is
stripped of surrounding whitespace (`text.strip()`). -/
def generate_transcription (transcribe : Turn → String) (diarization : List Turn)
    (collar : ℚ) : List Caption :=
  (mergeTurns collar diarization).map fun turn =>
    { start := turn.start, stop := turn.stop, speaker := turn.speaker,
      text := pyStrip (transcribe turn) }

/-- Model of `format_transcription` (lines 172-178): a left fold
accumulating one SubViewer entry per caption into `result`.  The source
calls `format_timestamp`, whose string value is `format_timestamp_str`;
the datetime-overflow path is not reachable for offsets produced by
diarization of a real audio file. -/
def format_transcription (transcription : List Caption) : String :=
  transcription.foldl
    (fun result t =>
      result ++ format_timestamp_str t.start ++ "," ++ format_timestamp_str t.stop
        ++ "\n" ++ t.speaker ++ ": " ++ t.text ++ "\n\n")
    ""

/-- Model of `save_transcription` (lines 181-192): the file named
`file_name + "_output.sub"` is opened with mode `w` (truncating any
previous content) and one SubViewer entry per caption is written in
sequence; the value below is the full content of the file after the
loop. -/
def save_transcription_content : List Caption → String
  | [] => ""
  | t :: rest =>
      (format_timestamp_str t.start ++ "," ++ format_timestamp_str t.stop
        ++ "\n" ++ t.speaker ++ ": " ++ t.text ++ "\n\n")
        ++ save_transcription_content rest

/-- Python truthiness of the optional string inputs of `process_video`:
`None` and the empty string are falsy. -/
def truthy : Option String → Bool
  | none => false
  | some s => !(s == "")

/-- The `file_name` computation of lines 205 and 209:
`path.split('/')[-1].split('.')[0]`, that is, the characters after the
last slash and before the first dot that follows it. -/
def baseName (path : String) : String :=
  ⟨((path.data.reverse.takeWhile fun c => c != '/').reverse).takeWhile
    fun c => c != '.'⟩

/-- Errors that abort a pipeline run.  `invalidArgument` models the
`gr.Error` raised at line 222 (the error the spec taxonomy calls
InvalidArgument); `notFound` models the file-not-found error of
`RTTMLoader` when diarization is skipped but no cached diarization file
exists. -/
inductive PipelineError where
  | invalidArgument (msg : String)
  | notFound
  deriving DecidableEq, Repr

/-- Observable stage actions and artifact writes of a pipeline run, in
execution order. -/
inductive Event where
  | extractWav (videoFile : String)
  | transformMp3 (audioFile : String)
  | fetchYoutube (url : String)
  | runDiarization
  | loadCachedDiarization
  | runTranscription
  | writeSubFile (name content : String)
  deriving DecidableEq, Repr

/-- Source acquisition, lines 197-225 of `process_video`: when the
"Extract audio" stage is not skipped, the video file, the audio file and
the youtube URL are tried in that order and exactly one is used; if none
is truthy, `gr.Error("Provide either Youtube URL or video file")` is
raised before any stage has run.  Returns the trace of the acquisition
together with the computed `file_name`, which stays the initial empty
string on the URL, reuse and error paths. -/
def acquire (youtube_url video_file audio_file : Option String) (skip : List String) :
    List Event × Except PipelineError String :=
  if "Extract audio" ∈ skip then ([], Except.ok "")
  else if truthy video_file then
    ([Event.extractWav (video_file.getD "")], Except.ok (baseName (video_file.getD "")))
  else if truthy audio_file then
    ([Event.transformMp3 (audio_file.getD "")], Except.ok (baseName (audio_file.getD "")))
  else if truthy youtube_url then
    ([Event.fetchYoutube (youtube_url.getD "")], Except.ok "")
  else
    ([], Except.error (PipelineError.invalidArgument "Provide either Youtube URL or video file"))

/-- External collaborators of the pipeline: the pyannote diarization
model applied to the extracted audio file, the cached diarization
artifact (`TEMP_DIARIZATION_FILE`, present or not), and the whisper
transcription of the clip of a turn. -/
structure Caps where
  diarize : String → List Turn
  cachedDiarization : Option (List Turn)
  transcribe : Turn → String

/-- Model of `process_video` (lines 195-244): source acquisition, then
diarization (or reuse of the cached artifact), then transcription,
formatting and persistence.  Returns the trace of stage actions together
with either the formatted transcript or the error that aborted the
run. -/
def process_video (caps : Caps) (youtube_url video_file audio_file : Option String)
    (model : String) (collar : ℚ) (skip : List String) :
    List Event × Except PipelineError String :=
  match acquire youtube_url video_file audio_file skip with
  | (ev1, Except.error e) => (ev1, Except.error e)
  | (ev1, Except.ok file_name) =>
    let step2 : List Event × Except PipelineError (List Turn) :=
      if "Speaker diarization" ∈ skip then
        match caps.cachedDiarization with
        | some d => ([Event.loadCachedDiarization], Except.ok d)
        | none => ([Event.loadCachedDiarization], Except.error PipelineError.notFound)
      else
        ([Event.runDiarization], Except.ok (caps.diarize "temp/input.wav"))
    match step2 with
    | (ev2, Except.error e) => (ev1 ++ ev2, Except.error e)
    | (ev2, Except.ok d) =>
      let transcription := generate_transcription caps.transcribe d collar
      let output := format_transcription transcription
      (ev1 ++ ev2 ++
        [Event.runTranscription,
         Event.writeSubFile (file_name ++ "_output.sub")
           (save_transcription_content transcription)],
       Except.ok output)

/-- Model of `extract_audio_track` (lines 94-107).  The WAV file is
loaded as a pydub `AudioSegment` of `sourceDurationMs` milliseconds, the
window bounds are scaled to milliseconds (lines 101-102) and the segment
is sliced with `audio[start_ms:end_ms]`.  pydub slicing follows Python
list slicing: each bound is first clamped with `min(bound, len(audio))`,
a negative bound then counts from the end, and an empty segment results
when the lower bound is not below the upper one; no exception is ever
raised.  The value returned here is the duration in milliseconds of the
clip exported at line 107. -/
def extract_audio_track (sourceDurationMs : ℚ) (start_time end_time : ℚ) :
    Except PyError ℚ :=
  let start_ms := start_time * 1000
  let end_ms := end_time * 1000
  let s0 := min start_ms sourceDurationMs
  let e0 := min end_ms sourceDurationMs
  let s1 := if s0 < 0 then s0 + sourceDurationMs else s0
  let e1 := if e0 < 0 then e0 + sourceDurationMs else e0
  Except.ok (max 0 (e1 - s1))

/-- Model of lines 28-29, executed at module import time:
`HUGGINGFACE_AUTH_TOKEN = os.getenv('HUGGINGFACE_AUTH_TOKEN')` followed
by a logging call.  `os.getenv` returns `None` when the variable is
absent and raises nothing, so startup always succeeds and merely stores
the optional token value. -/
def startupToken (env : String → Option String) :
    Except PipelineError (Option String) :=
  Except.ok (env "HUGGINGFACE_AUTH_TOKEN")

/-- Model of `generate_speaker_diarization` (lines 110-128): the pyannote
pipeline is instantiated with `use_auth_token=HUGGINGFACE_AUTH_TOKEN`,
whatever that stored value is (possibly `None`); this call, deep inside
the run, is the first place the token is used. -/
def generate_speaker_diarization
    (pipelineFromPretrained : Option String → String → List Turn)
    (token : Option String) (audio_file : String) : List Turn :=
  pipelineFromPretrained token audio_file

/-- Capabilities of the end-to-end scenario of the spec: diarization
returns the two turns `(SPEAKER_00, 0.0, 3.2)` and `(SPEAKER_01, 3.2, 6.0)`
and transcription returns "hello there" and "goodbye now" for them
respectively. -/
def scenarioCaps : Caps where
  diarize := fun _ => [⟨"SPEAKER_00", 0, 16/5⟩, ⟨"SPEAKER_01", 16/5, 6⟩]
  cachedDiarization := none
  transcribe := fun t =>
    if t.speaker = "SPEAKER_00" then "hello there" else "goodbye now"

theorem turnLE_refl (a : Turn) : turnLE a a := Or.inr ⟨rfl, le_rfl⟩

theorem turnLE_trans {a b c : Turn} (hab : turnLE a b) (hbc : turnLE b c) :
    turnLE a c := by
  unfold turnLE at *
  rcases hab with h | ⟨h, h'⟩ <;> rcases hbc with g | ⟨g, g'⟩
  · exact Or.inl (h.trans g)
  · exact Or.inl (g ▸ h)
  · exact Or.inl (h ▸ g)
  · exact Or.inr ⟨h.trans g, h'.trans g'⟩

theorem roundHalfEven_intCast (n : ℤ) : roundHalfEven (n : ℚ) = n := by
  unfold roundHalfEven
  rw [Int.floor_intCast, sub_self]
  norm_num

theorem roundHalfEven_mono {p q : ℚ} (h : p ≤ q) :
    roundHalfEven p ≤ roundHalfEven q := by
  unfold roundHalfEven
  have hf : ⌊p⌋ ≤ ⌊q⌋ := Int.floor_mono h
  rcases eq_or_lt_of_le hf with heq | hlt
  · rw [heq]
    have hp : p - ⌊q⌋ ≤ q - ⌊q⌋ := by linarith
    split_ifs <;> first | omega | linarith
  · have h1 : ⌊p⌋ + 1 ≤ ⌊q⌋ := hlt
    split_ifs <;> omega

theorem roundHalfEven_le_intCast {q : ℚ} {n : ℤ} (h : q ≤ (n : ℚ)) :
    roundHalfEven q ≤ n := by
  have := roundHalfEven_mono h
  rwa [roundHalfEven_intCast] at this

theorem intCast_le_roundHalfEven {q : ℚ} {n : ℤ} (h : (n : ℚ) ≤ q) :
    n ≤ roundHalfEven q := by
  have := roundHalfEven_mono h
  rwa [roundHalfEven_intCast] at this

theorem format_timestamp_eval (s : ℚ) (u : ℤ) (h : s * 1000000 = (u : ℚ)) :
    format_timestamp s =
      if -62135596800000000 ≤ u ∧ u ≤ 253402300799999999 then
        Except.ok (pySliceDrop4 (strftime_hmsf u))
      else
        Except.error PyError.overflowError := by
  unfold format_timestamp format_timestamp_str
  rw [h, roundHalfEven_intCast]

theorem format_timestamp_str_eval (s : ℚ) (u : ℤ) (h : s * 1000000 = (u : ℚ)) :
    format_timestamp_str s = pySliceDrop4 (strftime_hmsf u) := by
  unfold format_timestamp_str
  rw [h, roundHalfEven_intCast]

theorem format_timestamp_ok_of {q : ℚ}
    (h1 : (-62135596800000000 : ℚ) ≤ q * 1000000)
    (h2 : q * 1000000 ≤ 253402300799999999) :
    format_timestamp q = Except.ok (format_timestamp_str q) := by
  unfold format_timestamp
  rw [if_pos ⟨intCast_le_roundHalfEven (by exact_mod_cast h1),
    roundHalfEven_le_intCast (by exact_mod_cast h2)⟩]

theorem mergeLoop_head (collar : ℚ) (ts : List Turn) :
    ∀ cur : Turn, ∃ e rest,
      mergeLoop collar cur ts = ⟨cur.speaker, cur.start, e⟩ :: rest ∧
        cur.stop ≤ e := by
  induction ts with
  | nil => exact fun cur => ⟨cur.stop, [], rfl, le_rfl⟩
  | cons t ts ih =>
    intro cur
    by_cases h : cur.speaker = t.speaker ∧ t.start - cur.stop ≤ collar
    · obtain ⟨e, rest, heq, hle⟩ := ih ⟨cur.speaker, cur.start, max cur.stop t.stop⟩
      exact ⟨e, rest, by rw [mergeLoop, if_pos h]; exact heq,
        le_trans (le_max_left _ _) hle⟩
    · exact ⟨cur.stop, mergeLoop collar t ts, by rw [mergeLoop, if_neg h], le_rfl⟩

theorem mergeLoop_sorted (collar : ℚ) (ts : List Turn) :
    ∀ cur : Turn, List.Sorted turnLE (cur :: ts) →
      List.Sorted turnLE (mergeLoop collar cur ts) ∧
        ∀ u ∈ mergeLoop collar cur ts, turnLE cur u := by
  induction ts with
  | nil =>
    intro cur _
    refine ⟨?_, ?_⟩
    · rw [mergeLoop]; exact List.sorted_singleton _
    · intro u hu
      rw [mergeLoop] at hu
      rcases List.mem_singleton.mp hu with rfl
      exact turnLE_refl u
  | cons t ts ih =>
    intro cur hs
    have hcur_t : turnLE cur t := (List.sorted_cons.mp hs).1 t (by simp)
    have hcur_ts : ∀ u ∈ ts, turnLE cur u := fun u hu =>
      (List.sorted_cons.mp hs).1 u (by simp [hu])
    have hst : List.Sorted turnLE (t :: ts) := (List.sorted_cons.mp hs).2
    have ht_ts : ∀ u ∈ ts, turnLE t u := fun u hu => (List.sorted_cons.mp hst).1 u hu
    by_cases h : cur.speaker = t.speaker ∧ t.start - cur.stop ≤ collar
    · have hsorted' :
          List.Sorted turnLE ((⟨cur.speaker, cur.start, max cur.stop t.stop⟩ : Turn) :: ts) := by
        rw [List.sorted_cons]
        refine ⟨?_, (List.sorted_cons.mp hst).2⟩
        intro u hu
        rcases hcur_ts u hu with hlt | ⟨heq, hle⟩
        · exact Or.inl hlt
        · refine Or.inr ⟨heq, max_le hle ?_⟩
          rcases ht_ts u hu with hlt2 | ⟨_, hle2⟩
          · exfalso
            rcases hcur_t with h3 | ⟨h3, _⟩
            · exact absurd heq (ne_of_lt (h3.trans hlt2))
            · exact absurd heq (ne_of_lt (h3 ▸ hlt2))
          · exact hle2
      obtain ⟨hs', hb'⟩ := ih _ hsorted'
      have hcc : turnLE cur ⟨cur.speaker, cur.start, max cur.stop t.stop⟩ :=
        Or.inr ⟨rfl, le_max_left _ _⟩
      refine ⟨?_, ?_⟩
      · rw [mergeLoop, if_pos h]; exact hs'
      · intro u hu
        rw [mergeLoop, if_pos h] at hu
        exact turnLE_trans hcc (hb' u hu)
    · obtain ⟨hs', hb'⟩ := ih t hst
      refine ⟨?_, ?_⟩
      · rw [mergeLoop, if_neg h, List.sorted_cons]
        exact ⟨fun u hu => turnLE_trans hcur_t (hb' u hu), hs'⟩
      · intro u hu
        rw [mergeLoop, if_neg h] at hu
        rcases List.mem_cons.mp hu with rfl | hu
        · exact turnLE_refl u
        · exact turnLE_trans hcur_t (hb' u hu)

theorem mergeLoop_separated (collar : ℚ) (ts : List Turn) :
    ∀ cur : Turn, List.Chain' (separated collar) (mergeLoop collar cur ts) := by
  induction ts with
  | nil => intro cur; rw [mergeLoop]; exact List.chain'_singleton _
  | cons t ts ih =>
    intro cur
    by_cases h : cur.speaker = t.speaker ∧ t.start - cur.stop ≤ collar
    · rw [mergeLoop, if_pos h]; exact ih _
    · rw [mergeLoop, if_neg h, List.chain'_cons']
      refine ⟨?_, ih t⟩
      intro y hy
      obtain ⟨e, rest, heq, _⟩ := mergeLoop_head collar ts t
      rw [heq] at hy
      simp only [List.head?_cons, Option.mem_def, Option.some.injEq] at hy
      subst hy
      exact h

theorem mergeLoop_id_of_separated (collar : ℚ) (ts : List Turn) :
    ∀ cur : Turn, List.Chain' (separated collar) (cur :: ts) →
      mergeLoop collar cur ts = cur :: ts := by
  induction ts with
  | nil => intro cur _; rfl
  | cons t ts ih =>
    intro cur hch
    rw [List.chain'_cons] at hch
    rw [mergeLoop, if_neg hch.1, ih t hch.2]

theorem mergeTurns_sorted (collar : ℚ) (ts : List Turn) :
    List.Sorted turnLE (mergeTurns collar ts) := by
  unfold mergeTurns
  cases h : List.insertionSort turnLE ts with
  | nil => exact List.sorted_nil
  | cons t l =>
    have hs := List.sorted_insertionSort turnLE ts
    rw [h] at hs
    exact (mergeLoop_sorted collar l t hs).1

theorem mergeTurns_separated (collar : ℚ) (ts : List Turn) :
    List.Chain' (separated collar) (mergeTurns collar ts) := by
  unfold mergeTurns
  cases List.insertionSort turnLE ts with
  | nil => exact List.chain'_nil
  | cons t l => exact mergeLoop_separated collar l t

theorem mergeTurns_idem (collar : ℚ) (ts : List Turn) :
    mergeTurns collar (mergeTurns collar ts) = mergeTurns collar ts := by
  have hs := mergeTurns_sorted collar ts
  have hc := mergeTurns_separated collar ts
  cases h : mergeTurns collar ts with
  | nil => rfl
  | cons t l =>
    rw [h] at hs hc
    unfold mergeTurns
    rw [hs.insertionSort_eq]
    exact mergeLoop_id_of_separated collar l t hc

theorem format_transcription_foldl (l : List Caption) :
    ∀ acc : String,
      l.foldl
        (fun result t =>
          result ++ format_timestamp_str t.start ++ "," ++ format_timestamp_str t.stop
            ++ "\n" ++ t.speaker ++ ": " ++ t.text ++ "\n\n")
        acc = acc ++ save_transcription_content l := by
  induction l with
  | nil => intro acc; simp [save_transcription_content]
  | cons t rest ih =>
    intro acc
    rw [List.foldl_cons, ih, save_transcription_content]
    simp [String.append_assoc]

theorem digitChar_lt_iff :
    ∀ a : ℕ, a < 10 → ∀ b : ℕ, b < 10 →
      (digitChar a < digitChar b ↔ a < b) := by decide

theorem lex_two_append {x y : ℕ} (hy : y < 100) (hxy : x < y)
    (r₁ r₂ : List Char) :
    List.Lex (· < ·) (two x ++ r₁) (two y ++ r₂) := by
  have hx : x < 100 := hxy.trans hy
  unfold two
  simp only [List.cons_append, List.nil_append]
  rcases Nat.lt_or_ge (x / 10) (y / 10) with h | h
  · exact List.Lex.rel
      ((digitChar_lt_iff _ (by omega) _ (by omega)).mpr (by omega))
  · have hdiv : x / 10 = y / 10 := by omega
    rw [hdiv]
    exact List.Lex.cons
      (List.Lex.rel ((digitChar_lt_iff _ (by omega) _ (by omega)).mpr (by omega)))

theorem kChars_lt {k₁ k₂ : ℕ} (h : k₁ < k₂) (hk : k₂ < 8640000) :
    List.Lex (· < ·) (kChars k₁) (kChars k₂) := by
  unfold kChars
  rcases Nat.lt_or_ge (k₁ / 360000) (k₂ / 360000) with hh | hh
  · exact lex_two_append (by omega) hh _ _
  · have heq : k₁ / 360000 = k₂ / 360000 := by omega
    rw [heq]
    apply List.Lex.append_left
    apply List.Lex.cons
    rcases Nat.lt_or_ge (k₁ / 6000 % 60) (k₂ / 6000 % 60) with hm | hm
    · exact lex_two_append (by omega) hm _ _
    · have heqm : k₁ / 6000 % 60 = k₂ / 6000 % 60 := by omega
      rw [heqm]
      apply List.Lex.append_left
      apply List.Lex.cons
      rcases Nat.lt_or_ge (k₁ / 100 % 60) (k₂ / 100 % 60) with hsec | hsec
      · exact lex_two_append (by omega) hsec _ _
      · have heqs : k₁ / 100 % 60 = k₂ / 100 % 60 := by omega
        rw [heqs]
        apply List.Lex.append_left
        apply List.Lex.cons
        have hc : k₁ % 100 < k₂ % 100 := by omega
        rw [show two (k₁ % 100) = two (k₁ % 100) ++ [] from (List.append_nil _).symm,
          show two (k₂ % 100) = two (k₂ % 100) ++ [] from (List.append_nil _).symm]
        exact lex_two_append (by omega) hc _ _

theorem format_str_eq_kChars (u : ℤ) :
    pySliceDrop4 (strftime_hmsf u) =
      ⟨kChars ((u % 86400000000).toNat / 10000)⟩ := by
  unfold pySliceDrop4 strftime_hmsf kChars
  congr 1
  have e1 : (u % 86400000000).toNat / 10000 / 360000 =
      (u % 86400000000).toNat / 3600000000 := by omega
  have e2 : (u % 86400000000).toNat / 10000 / 6000 % 60 =
      (u % 86400000000).toNat / 60000000 % 60 := by omega
  have e3 : (u % 86400000000).toNat / 10000 / 100 % 60 =
      (u % 86400000000).toNat / 1000000 % 60 := by omega
  have e4 : (u % 86400000000).toNat / 10000 % 100 / 10 % 10 =
      (u % 86400000000).toNat / 100000 % 10 := by omega
  have e5 : (u % 86400000000).toNat / 10000 % 100 % 10 =
      (u % 86400000000).toNat / 10000 % 10 := by omega
  simp only [two, List.cons_append, List.nil_append, List.dropLast]
  rw [e1, e2, e3, e4, e5]

theorem format_timestamp_str_le {a b : ℚ} (hb : 0 ≤ b) (hab : b ≤ a)
    (ha : a * 1000000 ≤ 86399999999) :
    format_timestamp_str b ≤ format_timestamp_str a := by
  unfold format_timestamp_str
  have hb6 : (0 : ℚ) ≤ b * 1000000 := mul_nonneg hb (by norm_num)
  have hab6 : b * 1000000 ≤ a * 1000000 :=
    mul_le_mul_of_nonneg_right hab (by norm_num)
  have hub0 : 0 ≤ roundHalfEven (b * 1000000) :=
    intCast_le_roundHalfEven (by exact_mod_cast hb6)
  have huba : roundHalfEven (b * 1000000) ≤ roundHalfEven (a * 1000000) :=
    roundHalfEven_mono hab6
  have hua : roundHalfEven (a * 1000000) ≤ 86399999999 :=
    roundHalfEven_le_intCast (by exact_mod_cast ha)
  rw [format_str_eq_kChars, format_str_eq_kChars]
  rw [Int.emod_eq_of_lt hub0 (by omega), Int.emod_eq_of_lt (le_trans hub0 huba) (by omega)]
  have hdiv : (roundHalfEven (b * 1000000)).toNat / 10000 ≤
      (roundHalfEven (a * 1000000)).toNat / 10000 := by omega
  rcases eq_or_lt_of_le hdiv with he | hl
  · rw [he]
  · refine le_of_lt ?_
    rw [String.lt_iff_toList_lt]
    exact kChars_lt hl (by omega)

theorem scenario_run_eval :
    (process_video scenarioCaps none (some "meeting.mp4") none "base" (1/2) []).2 =
      Except.ok "00:00:00.00,00:00:03.20\nSPEAKER_00: hello there\n\n00:00:03.20,00:00:06.00\nSPEAKER_01: goodbye now\n\n" := by
  have hm : mergeTurns (1/2) [(⟨"SPEAKER_00", 0, 16/5⟩ : Turn), ⟨"SPEAKER_01", 16/5, 6⟩] =
      [⟨"SPEAKER_00", 0, 16/5⟩, ⟨"SPEAKER_01", 16/5, 6⟩] := by
    norm_num [mergeTurns, mergeLoop, List.insertionSort, List.orderedInsert, turnLE]
    decide
  have h0 : format_timestamp_str 0 = "00:00:00.00" := by
    rw [format_timestamp_str_eval 0 0 (by norm_num)]; decide
  have h32 : format_timestamp_str (16/5) = "00:00:03.20" := by
    rw [format_timestamp_str_eval (16/5) 3200000 (by norm_num)]; decide
  have h6 : format_timestamp_str 6 = "00:00:06.00" := by
    rw [format_timestamp_str_eval 6 6000000 (by norm_num)]; decide
  have ha : acquire none (some "meeting.mp4") none [] =
      ([Event.extractWav "meeting.mp4"], Except.ok "meeting") := by decide
  simp [process_video, scenarioCaps, ha, generate_transcription, hm,
    format_transcription, h0, h32, h6, -one_div]
  decide

/-- C1 counterexample: in the end-to-end scenario of the spec (two
diarized turns, canned transcriptions, collar 0.5) the pipeline does not
produce the spec string with three fractional digits: `format_timestamp`
truncates to two fractional digits. -/
theorem C1_end_to_end_counterexample :
    (process_video scenarioCaps none (some "meeting.mp4") none "base" (1/2) []).2 ≠
      Except.ok "00:00:00.000,00:00:03.200\nSPEAKER_00: hello there\n\n00:00:03.200,00:00:06.000\nSPEAKER_01: goodbye now\n\n" := by
  rw [scenario_run_eval]
  decide

/-- C1 (amended): in the end-to-end scenario (diarized turns
`(SPEAKER_00, 0.0, 3.2)` and `(SPEAKER_01, 3.2, 6.0)`, transcription
capability returning "hello there" and "goodbye now" respectively, collar
0.5) the pipeline returns exactly the SubViewer transcript with
two-fractional-digit timestamps. -/
theorem C1_end_to_end_amended :
    (process_video scenarioCaps none (some "meeting.mp4") none "base" (1/2) []).2 =
      Except.ok "00:00:00.00,00:00:03.20\nSPEAKER_00: hello there\n\n00:00:03.20,00:00:06.00\nSPEAKER_01: goodbye now\n\n" :=
  scenario_run_eval

/-- C2 counterexample: `format_timestamp 0` is "00:00:00.00", not the
claimed "00:00:00.000" (two fractional digits, not three); moreover the
formatter wraps at 24 hours, so it is not monotone on all non-negative
inputs: `format(86400) = "00:00:00.00"` is lexicographically smaller than
`format(1) = "00:00:01.00"`. -/
theorem C2_timestamp_counterexample :
    format_timestamp 0 = Except.ok "00:00:00.00" ∧
    "00:00:00.00" ≠ "00:00:00.000" ∧
    format_timestamp 86400 = Except.ok "00:00:00.00" ∧
    format_timestamp 1 = Except.ok "00:00:01.00" ∧
    "00:00:00.00" < "00:00:01.00" := by
  refine ⟨?_, by decide, ?_, ?_, ?_⟩
  · rw [format_timestamp_eval 0 0 (by norm_num)]; decide
  · rw [format_timestamp_eval 86400 86400000000 (by norm_num)]; decide
  · rw [format_timestamp_eval 1 1000000 (by norm_num)]; decide
  · rw [String.lt_iff_toList_lt]; decide

/-- C2 (amended): the timestamp formatter returns `HH:MM:SS.cc` with
exactly two fractional digits obtained by truncating the microsecond
value; `format(0) = "00:00:00.00"` and `format(3661.2505) = "01:01:01.25"`;
and it is lexicographically monotone on inputs that stay within the first
day (`a * 10^6 ≤ 86399999999`; at 86400 seconds the hour field wraps to
zero). -/
theorem C2_timestamp_amended :
    format_timestamp 0 = Except.ok "00:00:00.00" ∧
    format_timestamp (36612505/10000) = Except.ok "01:01:01.25" ∧
    (∀ q : ℚ, 0 ≤ q → q * 1000000 ≤ 86399999999 →
      ∃ h m s c : ℕ, h < 24 ∧ m < 60 ∧ s < 60 ∧ c < 100 ∧
        c = (roundHalfEven (q * 1000000)).toNat % 1000000 / 10000 ∧
        format_timestamp q =
          Except.ok ⟨two h ++ (':' :: (two m ++ (':' :: (two s ++ ('.' :: two c)))))⟩) ∧
    (∀ a b : ℚ, 0 ≤ b → b < a → a * 1000000 ≤ 86399999999 →
      format_timestamp b = Except.ok (format_timestamp_str b) ∧
      format_timestamp a = Except.ok (format_timestamp_str a) ∧
      format_timestamp_str b ≤ format_timestamp_str a) := by
  refine ⟨?_, ?_, ?_, ?_⟩
  · rw [format_timestamp_eval 0 0 (by norm_num)]; decide
  · rw [format_timestamp_eval (36612505/10000) 3661250500 (by norm_num)]; decide
  · intro q h0 hq
    have hq6 : (0 : ℚ) ≤ q * 1000000 := mul_nonneg h0 (by norm_num)
    have hu0 : 0 ≤ roundHalfEven (q * 1000000) :=
      intCast_le_roundHalfEven (by exact_mod_cast hq6)
    have huday : roundHalfEven (q * 1000000) ≤ 86399999999 :=
      roundHalfEven_le_intCast (by exact_mod_cast hq)
    refine ⟨(roundHalfEven (q * 1000000)).toNat / 10000 / 360000,
      (roundHalfEven (q * 1000000)).toNat / 10000 / 6000 % 60,
      (roundHalfEven (q * 1000000)).toNat / 10000 / 100 % 60,
      (roundHalfEven (q * 1000000)).toNat / 10000 % 100,
      by omega, by omega, by omega, by omega, by omega, ?_⟩
    rw [format_timestamp_ok_of (le_trans (by norm_num) hq6) (le_trans hq (by norm_num))]
    unfold format_timestamp_str
    rw [format_str_eq_kChars, Int.emod_eq_of_lt hu0 (by omega)]
    rfl
  · intro a b hb hab ha
    have hb6 : (0 : ℚ) ≤ b * 1000000 := mul_nonneg hb (by norm_num)
    have hab6 : b * 1000000 ≤ a * 1000000 :=
      mul_le_mul_of_nonneg_right hab.le (by norm_num)
    exact ⟨format_timestamp_ok_of (le_trans (by norm_num) hb6)
        (le_trans (le_trans hab6 ha) (by norm_num)),
      format_timestamp_ok_of (le_trans (by norm_num) (le_trans hb6 hab6))
        (le_trans ha (by norm_num)),
      format_timestamp_str_le hb hab.le ha⟩

/-- C2 witness: the amended monotonicity statement applied at the
concrete inputs 2 and 1. -/
theorem C2_timestamp_amended_witness :
    format_timestamp 1 = Except.ok (format_timestamp_str 1) ∧
    format_timestamp 2 = Except.ok (format_timestamp_str 2) ∧
    format_timestamp_str 1 ≤ format_timestamp_str 2 :=
  C2_timestamp_amended.2.2.2 2 1 (by norm_num) (by norm_num) (by norm_num)

/-- C3 (merger modelled from the spec): the two examples of the spec, the
step rule of the merge scan (a new turn extends the open turn iff same
speaker and gap at most collar, taking the larger end), and sortedness by
start of every merge result. -/
theorem C3_turn_merger :
    mergeTurns (1/2) [⟨"A", 0, 5⟩, ⟨"A", 53/10, 8⟩, ⟨"B", 6, 9⟩] =
      [⟨"A", 0, 8⟩, ⟨"B", 6, 9⟩] ∧
    mergeTurns (2/10) [⟨"A", 0, 5⟩, ⟨"A", 53/10, 8⟩, ⟨"B", 6, 9⟩] =
      [⟨"A", 0, 5⟩, ⟨"A", 53/10, 8⟩, ⟨"B", 6, 9⟩] ∧
    (∀ (collar : ℚ) (cur t : Turn) (ts : List Turn),
      mergeLoop collar cur (t :: ts) =
        if cur.speaker = t.speaker ∧ t.start - cur.stop ≤ collar then
          mergeLoop collar ⟨cur.speaker, cur.start, max cur.stop t.stop⟩ ts
        else cur :: mergeLoop collar t ts) ∧
    ∀ (collar : ℚ) (ts : List Turn), List.Sorted turnLE (mergeTurns collar ts) := by
  refine ⟨?_, ?_, fun _ _ _ _ => rfl, mergeTurns_sorted⟩
  · norm_num [mergeTurns, mergeLoop, List.insertionSort, List.orderedInsert, turnLE]
    decide
  · norm_num [mergeTurns, mergeLoop, List.insertionSort, List.orderedInsert, turnLE]
    decide

/-- C4 (merger modelled from the spec): merging an already-merged
sequence with the same collar returns it unchanged. -/
theorem C4_merge_idempotent (turns : List Turn) (collar : ℚ) (h : 0 ≤ collar) :
    mergeTurns collar (mergeTurns collar turns) = mergeTurns collar turns :=
  mergeTurns_idem collar turns

/-- C4 witness: idempotence at the example turn list with collar 0.5. -/
theorem C4_merge_idempotent_witness :
    (0 : ℚ) ≤ 1/2 ∧
    mergeTurns (1/2) (mergeTurns (1/2) [⟨"A", 0, 5⟩, ⟨"A", 53/10, 8⟩, ⟨"B", 6, 9⟩]) =
      mergeTurns (1/2) [⟨"A", 0, 5⟩, ⟨"A", 53/10, 8⟩, ⟨"B", 6, 9⟩] :=
  ⟨by norm_num, C4_merge_idempotent [⟨"A", 0, 5⟩, ⟨"A", 53/10, 8⟩, ⟨"B", 6, 9⟩]
    (1/2) (by norm_num)⟩

/-- C5: when source acquisition is not skipped and no source input is
truthy, the run raises `gr.Error` (InvalidArgument) immediately: the
trace is empty, so no stage has executed and no artifact has been
written. -/
theorem C5_no_source_fails_early
    (caps : Caps) (model : String) (collar : ℚ) (skip : List String)
    (yu vf af : Option String)
    (hskip : "Extract audio" ∉ skip) (hv : truthy vf = false)
    (ha : truthy af = false) (hy : truthy yu = false) :
    process_video caps yu vf af model collar skip =
      ([], Except.error
        (PipelineError.invalidArgument "Provide either Youtube URL or video file")) := by
  have hacq : acquire yu vf af skip =
      ([], Except.error
        (PipelineError.invalidArgument "Provide either Youtube URL or video file")) := by
    unfold acquire
    rw [if_neg hskip, if_neg (by simp [hv]), if_neg (by simp [ha]), if_neg (by simp [hy])]
  unfold process_video
  rw [hacq]

/-- C5 witness: the failure at a fully concrete input. -/
theorem C5_no_source_fails_early_witness :
    process_video scenarioCaps none none none "base" (1/2) [] =
      ([], Except.error
        (PipelineError.invalidArgument "Provide either Youtube URL or video file")) :=
  C5_no_source_fails_early scenarioCaps "base" (1/2) [] none none none
    (by decide) rfl rfl rfl

/-- C6: when source acquisition is not skipped, exactly one source is
used, the video file first, else the audio file, else the URL. -/
theorem C6_source_precedence (yu vf af : Option String) (skip : List String)
    (hskip : "Extract audio" ∉ skip) :
    (truthy vf = true →
      acquire yu vf af skip =
        ([Event.extractWav (vf.getD "")], Except.ok (baseName (vf.getD "")))) ∧
    (truthy vf = false → truthy af = true →
      acquire yu vf af skip =
        ([Event.transformMp3 (af.getD "")], Except.ok (baseName (af.getD "")))) ∧
    (truthy vf = false → truthy af = false → truthy yu = true →
      acquire yu vf af skip =
        ([Event.fetchYoutube (yu.getD "")], Except.ok "")) := by
  refine ⟨?_, ?_, ?_⟩
  · intro hv
    unfold acquire
    rw [if_neg hskip, if_pos hv]
  · intro hv ha
    unfold acquire
    rw [if_neg hskip, if_neg (by simp [hv]), if_pos ha]
  · intro hv ha hy
    unfold acquire
    rw [if_neg hskip, if_neg (by simp [hv]), if_neg (by simp [ha]), if_pos hy]

/-- C6 witness: with all three sources supplied the video file wins. -/
theorem C6_source_precedence_witness :
    acquire (some "https://y") (some "v.mp4") (some "a.mp3") [] =
      ([Event.extractWav "v.mp4"], Except.ok "v") := by
  have h := (C6_source_precedence (some "https://y") (some "v.mp4") (some "a.mp3")
    [] (by decide)).1 (by decide)
  rw [h]; decide

/-- C7 counterexample: a negative input does not fail with
InvalidArgument; the datetime wraps into the previous day and the
formatter succeeds: `format(-1) = "23:59:59.00"`. -/
theorem C7_negative_counterexample :
    format_timestamp (-1) = Except.ok "23:59:59.00" := by
  rw [format_timestamp_eval (-1) (-1000000) (by norm_num)]; decide

/-- C7 (amended): for every negative input within the datetime range the
formatter raises nothing and returns the wrapped time-of-day string. -/
theorem C7_negative_amended (q : ℚ) (h1 : -62135596800 ≤ q) (h2 : q < 0) :
    format_timestamp q = Except.ok (format_timestamp_str q) :=
  format_timestamp_ok_of (by linarith) (by nlinarith)

/-- C7 witness: the amended statement at the concrete input -1. -/
theorem C7_negative_amended_witness :
    format_timestamp (-1) = Except.ok (format_timestamp_str (-1)) :=
  C7_negative_amended (-1) (by norm_num) (by norm_num)

/-- C8 counterexample: the audio segment extractor does not fail with
OutOfRange: with a 6-second source, the window [7, 8) (start beyond the
source) and the window [3, 2) (start not below end) both succeed with an
empty clip. -/
theorem C8_extractor_counterexample :
    extract_audio_track 6000 7 8 = Except.ok 0 ∧
    extract_audio_track 6000 3 2 = Except.ok 0 := by
  constructor <;> norm_num [extract_audio_track]

/-- C8 (amended): for non-negative windows, whenever the start is at or
beyond the source end or the window is empty, pydub slicing clamps and
the extractor succeeds with an empty (0 ms) clip instead of failing. -/
theorem C8_extractor_amended (D s e : ℚ) (hs : 0 ≤ s) (he : 0 ≤ e) (hD : 0 ≤ D)
    (h : D ≤ s * 1000 ∨ e ≤ s) :
    extract_audio_track D s e = Except.ok 0 := by
  unfold extract_audio_track
  dsimp only
  have hs0 : (0 : ℚ) ≤ min (s * 1000) D := le_min (mul_nonneg hs (by norm_num)) hD
  have he0 : (0 : ℚ) ≤ min (e * 1000) D := le_min (mul_nonneg he (by norm_num)) hD
  rw [if_neg (not_lt.mpr hs0), if_neg (not_lt.mpr he0)]
  congr 1
  rcases h with h | h
  · rw [min_eq_right h]
    have h2 : min (e * 1000) D ≤ D := min_le_right _ _
    exact max_eq_left (by linarith)
  · have h3 : min (e * 1000) D ≤ min (s * 1000) D :=
      min_le_min (by linarith) le_rfl
    exact max_eq_left (by linarith)

/-- C8 witness: the amended statement at the concrete counterexample
input. -/
theorem C8_extractor_amended_witness :
    extract_audio_track 6000 7 8 = Except.ok 0 :=
  C8_extractor_amended 6000 7 8 (by norm_num) (by norm_num) (by norm_num)
    (Or.inl (by norm_num))

/-- C9 counterexample: with the token absent from the environment,
startup succeeds (storing None) instead of failing fast with
MissingCredential. -/
theorem C9_startup_counterexample :
    startupToken (fun _ => none) = Except.ok none := rfl

/-- C9 (amended): startup merely reads and stores the optional token;
the stored value, present or not, is handed unchanged to the pyannote
pipeline instantiation inside the diarization stage, which is the first
point of use. -/
theorem C9_startup_amended (env : String → Option String) :
    startupToken env = Except.ok (env "HUGGINGFACE_AUTH_TOKEN") ∧
    ∀ (f : Option String → String → List Turn) (file : String),
      generate_speaker_diarization f (env "HUGGINGFACE_AUTH_TOKEN") file =
        f (env "HUGGINGFACE_AUTH_TOKEN") file :=
  ⟨rfl, fun _ _ => rfl⟩

/-- C10: the in-memory transcript rendering and the content written to
the subtitle file are the same string for every caption list. -/
theorem C10_format_save_equal (transcription : List Caption) :
    format_transcription transcription = save_transcription_content transcription := by
  unfold format_transcription
  rw [format_transcription_foldl]
  simp

end WebUI
